import Mathlib

/-!
Verification of the dnslookupprocessor resolution subsystem
(processor/dnslookupprocessor and its internal/resolver package).

The embedding models:
  * the sentinel error values and `errors.Is` / `errors.Join` as used by the
    code (resolver/resolver.go, chain.go);
  * `ChainResolver` with `Resolve`, `Reverse`, `Close` and
    `resolveInSequence` (chain.go), where a member resolver is modelled by
    its observable behaviour: the outcome of its n-th call on a given
    target, a close error, and a `closed` flag that its `Close()` sets;
  * the attribute-driven lookup driver `targetStrFromAttributes`,
    `processResolveLookup` and `processReverseLookup`
    (dnslookup_processor.go), over an association-list attribute map with
    `Get`/`PutStr` semantics of `pcommon.Map` restricted to string values;
  * the processor `Config` and its `Validate` (the `Validate` body is not
    among the source files, only its test is; it is modelled from the spec).

`ChainResolver.Resolve` in chain.go returns a single `string` (not the
`[]string` of the `Resolver` interface); the embedding follows chain.go and
dnslookup_processor.go, which both handle a single string result.
-/

namespace OtelDNS

/-- The error values of resolver/resolver.go (`ErrNoResolution`,
`ErrNotInHostFiles`, `ErrInvalidHostname`, `ErrInvalidIP`,
`ErrNSPermanentFailure`), together with `errors.New`/`fmt.Errorf` errors
(`errorf`), `%w`-wrapping (`wrap`) and `errors.Join` (`join`). -/
inductive GoErr where
  | noResolution
  | notInHostFiles
  | invalidHostname
  | invalidIP
  | nsPermanentFailure
  | errorf (msg : String)
  | wrap (msg : String) (inner : GoErr)
  | join (errs : List GoErr)

mutual

/-- Equality of error values, standing for Go error identity: the sentinels
are singletons, so constructor equality models pointer equality for them. -/
def GoErr.beq : GoErr → GoErr → Bool
  | .noResolution, .noResolution => true
  | .notInHostFiles, .notInHostFiles => true
  | .invalidHostname, .invalidHostname => true
  | .invalidIP, .invalidIP => true
  | .nsPermanentFailure, .nsPermanentFailure => true
  | .errorf m, .errorf m2 => m == m2
  | .wrap m i, .wrap m2 i2 => m == m2 && GoErr.beq i i2
  | .join es, .join es2 => GoErr.beqList es es2
  | _, _ => false

def GoErr.beqList : List GoErr → List GoErr → Bool
  | [], [] => true
  | e :: r, e2 :: r2 => GoErr.beq e e2 && GoErr.beqList r r2
  | _, _ => false

end

instance : BEq GoErr := ⟨GoErr.beq⟩

mutual

/-- `errors.Is(e, t)`: `e == t`, or recurse through `Unwrap() error`
(`wrap`) and `Unwrap() []error` (`join`). -/
def GoErr.is : GoErr → GoErr → Bool
  | .wrap m i, t => GoErr.beq (.wrap m i) t || GoErr.is i t
  | .join es, t => GoErr.beq (.join es) t || GoErr.isAny es t
  | e, t => GoErr.beq e t

def GoErr.isAny : List GoErr → GoErr → Bool
  | [], _ => false
  | e :: r, t => GoErr.is e t || GoErr.isAny r t

end

/-- `errors.Is` on a possibly-nil error: `errors.Is(nil, t)` is false for the
non-nil sentinels. -/
def errIs : Option GoErr → GoErr → Bool
  | none, _ => false
  | some e, t => GoErr.is e t

/-- The `(string, error)` pair a resolver call in chain.go returns. -/
structure GoResult where
  value : String
  err : Option GoErr

/-- A member resolver of a chain, by its observable behaviour: `resolveFn t n`
(resp. `reverseFn t n`) is the outcome of its n-th `Resolve` (resp. `Reverse`)
call on target `t`; `closeErr` is what its `Close()` returns, and `Close()`
sets `closed`. -/
structure ResolverBehavior where
  name : String
  resolveFn : String → Nat → GoResult
  reverseFn : String → Nat → GoResult
  closed : Bool
  closeErr : Option GoErr

/-- ChainResolver of chain.go: a name (always "chain") and the member
resolvers, in order. The logger only emits debug lines and is omitted. -/
structure ChainResolver where
  name : String
  resolvers : List ResolverBehavior

/-- `NewChainResolver(resolvers, logger)` of chain.go. (Its caller in
dnslookup_processor.go passes `config.MaxRetries` as a first argument that
this constructor does not declare.) -/
def NewChainResolver (resolvers : List ResolverBehavior) : ChainResolver :=
  ⟨"chain", resolvers⟩

/-- The loop of `resolveInSequence` (chain.go lines 63-87): each member is
called once; `err == nil || errors.Is(err, ErrNoResolution)` returns
`(result, nil)`; otherwise `lastErr = err` and the loop advances.  After the
loop, `errors.Is(lastErr, ErrNotInHostFiles)` yields `("", nil)`, else
`("", lastErr)`. -/
def resolveInSeqLoop : List GoResult → Option GoErr → GoResult
  | [], lastErr =>
    if errIs lastErr GoErr.notInHostFiles then ⟨"", none⟩ else ⟨"", lastErr⟩
  | res :: rest, _ =>
    if res.err.isNone || errIs res.err GoErr.noResolution then ⟨res.value, none⟩
    else resolveInSeqLoop rest res.err

/-- `ChainResolver.resolveInSequence`: runs the members in order through the
given per-member call `resolverFn` (the closure `Resolve`/`Reverse` passes),
starting with a nil `lastErr`. -/
def ChainResolver.resolveInSequence (c : ChainResolver)
    (resolverFn : ResolverBehavior → GoResult) : GoResult :=
  resolveInSeqLoop (c.resolvers.map resolverFn) none

/-- `ChainResolver.Resolve`: one lookup; the loop body calls each member's
`Resolve` exactly once, hence call index 0. -/
def ChainResolver.Resolve (c : ChainResolver) (hostname : String) : GoResult :=
  c.resolveInSequence fun r => r.resolveFn hostname 0

/-- `ChainResolver.Reverse`: one lookup; the loop body calls each member's
`Reverse` exactly once, hence call index 0. -/
def ChainResolver.Reverse (c : ChainResolver) (ip : String) : GoResult :=
  c.resolveInSequence fun r => r.reverseFn ip 0

/-- `errors.Join(errs...)` on the already-collected non-nil errors: nil when
there are none, else one combined error holding all of them in order. -/
def errorsJoin : List GoErr → Option GoErr
  | [] => none
  | errs => some (GoErr.join errs)

/-- The loop of `ChainResolver.Close` (chain.go lines 49-58): calls `Close()`
on every member (marking it closed), collecting the non-nil errors in
order. -/
def closeSeq : List ResolverBehavior → List ResolverBehavior × List GoErr
  | [] => ([], [])
  | r :: rest =>
    let step := closeSeq rest
    match r.closeErr with
    | some e => ({ r with closed := true } :: step.1, e :: step.2)
    | none => ({ r with closed := true } :: step.1, step.2)

/-- `ChainResolver.Close`: close every member, return the members (now
closed) and `errors.Join` of the collected errors. -/
def ChainResolver.Close (c : ChainResolver) : ChainResolver × Option GoErr :=
  let step := closeSeq c.resolvers
  ({ c with resolvers := step.1 }, errorsJoin step.2)

/-- Modelled from the spec: the retry budget of §4.2 — "when configured with
N>0 retries, apply up to N additional attempts against a failing resolver
before advancing to the next one in the chain", with `NoResolution` treated
as success.  `specRetryAux f i budget` makes attempt `i` and, while the
attempt fails with a retryable error and budget remains, retries. The chain
constructor call site (dnslookup_processor.go line 94) passes
`config.MaxRetries` for this purpose, but chain.go itself declares no retry
parameter. -/
def specRetryAux (f : Nat → GoResult) (i : Nat) : Nat → GoResult
  | 0 => f i
  | budget + 1 =>
    let r := f i
    if r.err.isNone || errIs r.err GoErr.noResolution then r
    else specRetryAux f (i + 1) budget

/-- Modelled from the spec: the chain with a retry budget — each member is
given up to `maxRetries` additional attempts before the chain advances. -/
def specChainResolve (maxRetries : Nat) (members : List (Nat → GoResult)) :
    GoResult :=
  resolveInSeqLoop (members.map fun f => specRetryAux f 0 maxRetries) none

/-! ## Attribute-driven lookup (dnslookup_processor.go) -/

/-- A `pcommon.Map` restricted to string values: an association list;
`Get` returns the first binding of a key. -/
abbrev AttrMap := List (String × String)

/-- `pMap.Get(attr)` followed by `.Str()`. -/
def mapGet (m : AttrMap) (key : String) : Option String :=
  (m.find? fun p => p.1 == key).map fun p => p.2

/-- `pMap.PutStr(key, val)`: overwrite the existing binding of `key`, or
append a new one. -/
def putStr (m : AttrMap) (key val : String) : AttrMap :=
  if m.any fun p => p.1 == key then
    m.map fun p => if p.1 == key then (key, val) else p
  else m ++ [(key, val)]

/-- The loop of `targetStrFromAttributes` (dnslookup_processor.go lines
207-221): for each attribute name, if the map has it, validate its value;
a validation error is remembered as `lastErr`, a validated value is
returned with a nil error.  Exhausting the list returns `("", lastErr)`. -/
def targetStrAux (pMap : AttrMap) (validateFn : String → String × Option GoErr) :
    List String → Option GoErr → String × Option GoErr
  | [], lastErr => ("", lastErr)
  | attr :: rest, lastErr =>
    match mapGet pMap attr with
    | some val =>
      match validateFn val with
      | (validStr, none) => (validStr, none)
      | (_, some err) => targetStrAux pMap validateFn rest (some err)
    | none => targetStrAux pMap validateFn rest lastErr

/-- `targetStrFromAttributes(attributes, pMap, validateFn)`: the first
IP/hostname from the given attributes, validated by `validateFn`. -/
def targetStrFromAttributes (attributes : List String) (pMap : AttrMap)
    (validateFn : String → String × Option GoErr) : String × Option GoErr :=
  targetStrAux pMap validateFn attributes none

/-- `LookupConfig`: per-direction settings. `Context` is the context id
string ("resource" or "record" when valid). -/
structure LookupConfig where
  Enabled : Bool
  Context : String
  Attributes : List String
  ResolvedAttribute : String

/-- `Config` of the processor: two `LookupConfig`s, cache sizes and TTLs,
retry count, timeout (float seconds, modelled as a rational) and backend
enablement. -/
structure Config where
  Resolve : LookupConfig
  Reverse : LookupConfig
  HitCacheSize : Int
  HitCacheTTL : Int
  MissCacheSize : Int
  MissCacheTTL : Int
  MaxRetries : Int
  Timeout : ℚ
  EnableSystemResolver : Bool
  Hostfiles : List String
  Nameservers : List String

/-- Modelled from the spec: `Config.Validate` is not among the source files
(only its test, `TestConfig_Validate`, is).  The field rules follow the
configuration schema of spec section 6 — at least one direction enabled; per
enabled direction a non-empty attribute list, a non-empty resolved
attribute and a resource/record context; cache sizes non-negative; TTLs,
timeout positive; max retries non-negative; at least one backend — with the
error messages the test expects. -/
def Config.Validate (c : Config) : Option String :=
  if !c.Resolve.Enabled && !c.Reverse.Enabled then
    some "either forward (resolve) or reverse DNS lookup must be enabled"
  else if c.Resolve.Enabled && c.Resolve.Attributes.isEmpty then
    some "resolve configuration: at least one attribute must be specified for DNS resolution"
  else if c.Resolve.Enabled && c.Resolve.ResolvedAttribute == "" then
    some "resolve configuration: resovled_attribute must be specified for DNS resolution"
  else if c.Resolve.Enabled &&
      !(c.Resolve.Context == "resource" || c.Resolve.Context == "record") then
    some "resolve configuration: context must be either resource or record"
  else if c.Reverse.Enabled && c.Reverse.Attributes.isEmpty then
    some "reverse configuration: at least one attribute must be specified for DNS resolution"
  else if c.Reverse.Enabled && c.Reverse.ResolvedAttribute == "" then
    some "reverse configuration: resovled_attribute must be specified for DNS resolution"
  else if c.Reverse.Enabled &&
      !(c.Reverse.Context == "resource" || c.Reverse.Context == "record") then
    some "reverse configuration: context must be either resource or record"
  else if c.HitCacheSize < 0 then some "hit_cache_size must be non-negative"
  else if c.MissCacheSize < 0 then some "miss_cache_size must be non-negative"
  else if c.HitCacheTTL ≤ 0 then some "hit_cache_ttl must be positive"
  else if c.MissCacheTTL ≤ 0 then some "miss_cache_ttl must be positive"
  else if c.MaxRetries < 0 then some "max_retries must be non-negative"
  else if c.Timeout ≤ 0 then some "timeout must be positive"
  else if !c.EnableSystemResolver && c.Hostfiles.isEmpty && c.Nameservers.isEmpty then
    some "at least one of enable_system_resolver, hostfiles, or nameservers must be specified"
  else none

/-- The composed resolver the processor holds (`dp.resolver`), by the
outcome of one `Resolve`/`Reverse` call per target — as
dnslookup_processor.go consumes it, its result value is a single string. -/
structure ResolverFns where
  resolve : String → GoResult
  reverse : String → GoResult

/-- `dnsLookupProcessor`: the validated config and the composed resolver
(the process pairs and logger do not affect the per-record lookup). -/
structure dnsLookupProcessor where
  config : Config
  resolver : ResolverFns

/-- `processResolveLookup` (dnslookup_processor.go lines 154-177).
`validateFn` stands for `resolver.ParseHostname`, which the call site passes
to `targetStrFromAttributes` and which is not among the source files.  The
returned triple is the updated map, the record error, and the list of
targets the composed resolver was invoked on. -/
def processResolveLookup (dp : dnsLookupProcessor)
    (validateFn : String → String × Option GoErr) (pMap : AttrMap) :
    AttrMap × Option GoErr × List String :=
  match targetStrFromAttributes dp.config.Resolve.Attributes pMap validateFn with
  | (_, some err) =>
    if GoErr.is err GoErr.invalidHostname then (pMap, none, [])
    else (pMap, some err, [])
  | (hostname, none) =>
    let r := dp.resolver.resolve hostname
    if r.err.isNone then
      (if 0 < r.value.length then
        putStr pMap dp.config.Resolve.ResolvedAttribute r.value
       else pMap, none, [hostname])
    else if errIs r.err GoErr.noResolution then (pMap, none, [hostname])
    else (pMap, r.err, [hostname])

/-- `processReverseLookup` (dnslookup_processor.go lines 180-203).
`validateFn` stands for `resolver.ParseIP`, which is not among the source
files. -/
def processReverseLookup (dp : dnsLookupProcessor)
    (validateFn : String → String × Option GoErr) (pMap : AttrMap) :
    AttrMap × Option GoErr × List String :=
  match targetStrFromAttributes dp.config.Reverse.Attributes pMap validateFn with
  | (_, some err) =>
    if GoErr.is err GoErr.invalidIP then (pMap, none, [])
    else (pMap, some err, [])
  | (ip, none) =>
    let r := dp.resolver.reverse ip
    if r.err.isNone then
      (if 0 < r.value.length then
        putStr pMap dp.config.Reverse.ResolvedAttribute r.value
       else pMap, none, [ip])
    else if errIs r.err GoErr.noResolution then (pMap, none, [ip])
    else (pMap, r.err, [ip])

/-! ## Concrete fixtures -/

/-- A member resolver whose every call returns the same outcome. -/
def constMember (name : String) (out : GoResult) : ResolverBehavior :=
  ⟨name, fun _ _ => out, fun _ _ => out, false, none⟩

/-- A member whose first call on any target fails with a transient error and
whose later calls succeed — a transient failure a retry would absorb. -/
def flakyMember : ResolverBehavior where
  name := "nameserver"
  resolveFn := fun _ n =>
    if n = 0 then ⟨"", some (GoErr.errorf "dial timeout")⟩
    else ⟨"93.184.216.34", none⟩
  reverseFn := fun _ n =>
    if n = 0 then ⟨"", some (GoErr.errorf "dial timeout")⟩
    else ⟨"example.com", none⟩
  closed := false
  closeErr := none

/-- The valid configuration of `TestConfig_Validate`. -/
def testConfig : Config where
  Resolve := ⟨true, "resource", ["host.name"], "host.ip"⟩
  Reverse := ⟨false, "resource", ["client.ip"], "client.name"⟩
  HitCacheSize := 1000
  HitCacheTTL := 60
  MissCacheSize := 1000
  MissCacheTTL := 5
  MaxRetries := 2
  Timeout := mkRat 1 2
  EnableSystemResolver := true
  Hostfiles := []
  Nameservers := []

/-- A processor whose composed resolver always fails with a transient
backend error. -/
def failingBackendProcessor : dnsLookupProcessor where
  config := testConfig
  resolver :=
    ⟨fun _ => ⟨"", some (GoErr.errorf "lookup failure")⟩,
     fun _ => ⟨"", some (GoErr.errorf "lookup failure")⟩⟩

/-- A host-file member whose every lookup reports `ErrNotInHostFiles`. -/
def hostfileMissMember : ResolverBehavior :=
  constMember "hostfile" ⟨"", some GoErr.notInHostFiles⟩

/-- A host-file member whose every lookup fails with a generic read error. -/
def hostfileFailMember : ResolverBehavior :=
  constMember "hostfile" ⟨"", some (GoErr.errorf "read failure")⟩

/-- A nameserver member whose every lookup fails permanently. -/
def nsPermMember : ResolverBehavior :=
  constMember "nameserver" ⟨"", some GoErr.nsPermanentFailure⟩

/-- A nameserver member whose every lookup succeeds. -/
def successMember : ResolverBehavior :=
  constMember "nameserver" ⟨"93.184.216.34", none⟩

/-! ## Helper lemmas -/

mutual

theorem GoErr.beq_refl : ∀ e : GoErr, GoErr.beq e e = true
  | .noResolution => rfl
  | .notInHostFiles => rfl
  | .invalidHostname => rfl
  | .invalidIP => rfl
  | .nsPermanentFailure => rfl
  | .errorf m => by simp [GoErr.beq]
  | .wrap m i => by simp [GoErr.beq, GoErr.beq_refl i]
  | .join es => by simp [GoErr.beq, GoErr.beqList_refl es]

theorem GoErr.beqList_refl : ∀ es : List GoErr, GoErr.beqList es es = true
  | [] => rfl
  | e :: r => by simp [GoErr.beqList, GoErr.beq_refl e, GoErr.beqList_refl r]

end

theorem GoErr.is_self (e : GoErr) : GoErr.is e e = true := by
  cases e <;> simp [GoErr.is, GoErr.beq_refl]

/-- The chain loop never returns an error matching `ErrNotInHostFiles`: each
exit is either `(result, nil)` or guarded by the final `errors.Is` check. -/
theorem resolveInSeqLoop_never_notInHostFiles (outs : List GoResult)
    (le : Option GoErr) :
    errIs (resolveInSeqLoop outs le).err GoErr.notInHostFiles = false := by
  induction outs generalizing le with
  | nil =>
    cases hb : errIs le GoErr.notInHostFiles
    · simp only [resolveInSeqLoop]
      rw [if_neg (by simp [hb])]
      exact hb
    · simp only [resolveInSeqLoop]
      rw [if_pos hb]
      rfl
  | cons o rest ih =>
    cases hb : o.err.isNone || errIs o.err GoErr.noResolution
    · simp only [resolveInSeqLoop]
      rw [if_neg (by simp [hb])]
      exact ih o.err
    · simp only [resolveInSeqLoop]
      rw [if_pos hb]
      rfl

/-- When every outcome in the list fails (error present, not matching
`ErrNoResolution`), the loop reaches the end with the last outcome's error
as `lastErr` and applies the final `ErrNotInHostFiles` conversion to it. -/
theorem resolveInSeqLoop_all_fail (front : List GoResult) (lastO : GoResult)
    (le : Option GoErr)
    (hall : ∀ o ∈ front ++ [lastO],
      (o.err.isNone || errIs o.err GoErr.noResolution) = false) :
    resolveInSeqLoop (front ++ [lastO]) le =
      if errIs lastO.err GoErr.notInHostFiles then ⟨"", none⟩
      else ⟨"", lastO.err⟩ := by
  induction front generalizing le with
  | nil =>
    have h := hall lastO (by simp)
    simp [resolveInSeqLoop, h]
  | cons o front ih =>
    have h := hall o (by simp)
    have hrest : ∀ x ∈ front ++ [lastO],
        (x.err.isNone || errIs x.err GoErr.noResolution) = false := by
      intro x hx
      exact hall x (by simp only [List.cons_append, List.mem_cons]; exact Or.inr hx)
    simpa [resolveInSeqLoop, h] using ih o.err hrest

/-- When every outcome before position i fails and the outcome at position i
succeeds (nil error, or one matching `ErrNoResolution`), the loop returns
that outcome's value with a nil error, whatever comes after. -/
theorem resolveInSeqLoop_success_at (pre : List GoResult) (succ : GoResult)
    (rest : List GoResult) (le : Option GoErr)
    (hpre : ∀ o ∈ pre, (o.err.isNone || errIs o.err GoErr.noResolution) = false)
    (hsucc : (succ.err.isNone || errIs succ.err GoErr.noResolution) = true) :
    resolveInSeqLoop (pre ++ succ :: rest) le = ⟨succ.value, none⟩ := by
  induction pre generalizing le with
  | nil => simp [resolveInSeqLoop, hsucc]
  | cons o pre ih =>
    have h := hpre o (by simp)
    have hrest : ∀ x ∈ pre, (x.err.isNone || errIs x.err GoErr.noResolution) = false := by
      intro x hx
      exact hpre x (by simp [hx])
    simpa [resolveInSeqLoop, h] using ih o.err hrest

/-- A failing member, as the loop condition sees it. -/
theorem fail_cond_of_some (o : GoResult) (hs : o.err.isSome = true)
    (hnr : errIs o.err GoErr.noResolution = false) :
    (o.err.isNone || errIs o.err GoErr.noResolution) = false := by
  cases h : o.err <;> simp_all

/-- `PutStr` stores the value under the key. -/
theorem mapGet_putStr_same (m : AttrMap) (key val : String) :
    mapGet (putStr m key val) key = some val := by
  unfold putStr
  by_cases h : (m.any fun p => p.1 == key) = true
  · rw [if_pos h]
    induction m with
    | nil => simp at h
    | cons p m ih =>
      by_cases hp : (p.1 == key) = true
      · simp [mapGet, List.find?, hp]
      · have h2 : (m.any fun p => p.1 == key) = true := by
          simpa [List.any_cons, hp] using h
        simpa [mapGet, List.find?, hp] using ih h2
  · rw [if_neg h]
    induction m with
    | nil => simp [mapGet, List.find?]
    | cons p m ih =>
      have hp : (p.1 == key) = false := by
        by_contra hc
        simp only [Bool.not_eq_false] at hc
        exact h (by simp [List.any_cons, hc])
      have h2 : ¬(m.any fun p => p.1 == key) = true := by
        intro hc
        exact h (by simp [List.any_cons, hc])
      simpa [mapGet, List.find?, hp] using ih h2

theorem mapGet_replace_other (m : AttrMap) (key val k : String) (hk : k ≠ key) :
    mapGet (m.map fun p => if p.1 == key then (key, val) else p) k = mapGet m k := by
  have hkb : (key == k) = false := by
    simp only [beq_eq_false_iff_ne]
    exact fun h => hk h.symm
  induction m with
  | nil => rfl
  | cons p m ih =>
    by_cases hp : (p.1 == key) = true
    · have hpk : (p.1 == k) = false := by
        have hpe : p.1 = key := by simpa using hp
        simp [hpe, hkb]
      simpa [mapGet, List.find?, hp, hpk, hkb] using ih
    · by_cases hpk : (p.1 == k) = true
      · simp [mapGet, List.find?, (by simpa using hp : (p.1 == key) = false), hpk]
      · simpa [mapGet, List.find?, (by simpa using hp : (p.1 == key) = false),
          (by simpa using hpk : (p.1 == k) = false)] using ih

theorem mapGet_append_other (m : AttrMap) (key val k : String) (hk : k ≠ key) :
    mapGet (m ++ [(key, val)]) k = mapGet m k := by
  have hkb : (key == k) = false := by
    simp only [beq_eq_false_iff_ne]
    exact fun h => hk h.symm
  induction m with
  | nil => simp [mapGet, List.find?, hkb]
  | cons p m ih =>
    by_cases hpk : (p.1 == k) = true
    · simp [mapGet, List.find?, hpk]
    · simpa [mapGet, List.find?, (by simpa using hpk : (p.1 == k) = false)] using ih

/-- `PutStr` leaves every other key unchanged. -/
theorem mapGet_putStr_other (m : AttrMap) (key val k : String) (hk : k ≠ key) :
    mapGet (putStr m key val) k = mapGet m k := by
  unfold putStr
  by_cases h : (m.any fun p => p.1 == key) = true
  · rw [if_pos h]
    exact mapGet_replace_other m key val k hk
  · rw [if_neg h]
    exact mapGet_append_other m key val k hk

/-- The close loop marks every member closed. -/
theorem closeSeq_all_closed (l : List ResolverBehavior) :
    ∀ r ∈ (closeSeq l).1, r.closed = true := by
  induction l with
  | nil => intro r hr; simp [closeSeq] at hr
  | cons x l ih =>
    intro r hr
    cases hx : x.closeErr <;>
      simp only [closeSeq, hx, List.mem_cons] at hr <;>
      rcases hr with rfl | hr
    · rfl
    · exact ih r hr
    · rfl
    · exact ih r hr

/-- The close loop collects exactly the members' non-nil close errors, in
order. -/
theorem closeSeq_errs (l : List ResolverBehavior) :
    (closeSeq l).2 = l.filterMap fun r => r.closeErr := by
  induction l with
  | nil => rfl
  | cons x l ih =>
    cases hx : x.closeErr <;> simp [closeSeq, hx, List.filterMap_cons, ih]

/-- The rules of the configuration schema other than the positive-timeout
rule, as the spec's section 6 table states them. -/
def lookupOk (lc : LookupConfig) : Prop :=
  lc.Enabled = true →
    lc.Attributes ≠ [] ∧ lc.ResolvedAttribute ≠ "" ∧
      (lc.Context = "resource" ∨ lc.Context = "record")

def fieldRulesExceptTimeout (c : Config) : Prop :=
  (c.Resolve.Enabled = true ∨ c.Reverse.Enabled = true) ∧
  lookupOk c.Resolve ∧ lookupOk c.Reverse ∧
  0 ≤ c.HitCacheSize ∧ 0 ≤ c.MissCacheSize ∧
  0 < c.HitCacheTTL ∧ 0 < c.MissCacheTTL ∧ 0 ≤ c.MaxRetries ∧
  (c.EnableSystemResolver = true ∨ c.Hostfiles ≠ [] ∨ c.Nameservers ≠ [])

theorem lookupOk_conds (lc : LookupConfig) (h : lookupOk lc) :
    (lc.Enabled && lc.Attributes.isEmpty) = false ∧
    (lc.Enabled && (lc.ResolvedAttribute == "")) = false ∧
    (lc.Enabled && !(lc.Context == "resource" || lc.Context == "record")) = false := by
  by_cases he : lc.Enabled = true
  · obtain ⟨ha, hr, hc⟩ := h he
    refine ⟨?_, ?_, ?_⟩
    · cases hl : lc.Attributes with
      | nil => exact absurd hl ha
      | cons a l => simp [he, hl]
    · simp [he, hr]
    · rcases hc with hc | hc <;> simp [he, hc]
  · have he2 : lc.Enabled = false := by
      cases h2 : lc.Enabled
      · rfl
      · exact absurd h2 he
    simp [he2]

/-- Under every field rule but the timeout's, `Validate` reduces to the
timeout check. -/
theorem validate_of_fieldRules (c : Config) (hf : fieldRulesExceptTimeout c) :
    c.Validate = if c.Timeout ≤ 0 then some "timeout must be positive" else none := by
  obtain ⟨henab, hres, hrev, hhs, hms, hht, hmt, hmr, hback⟩ := hf
  have hc1 : (!c.Resolve.Enabled && !c.Reverse.Enabled) = false := by
    rcases henab with h | h <;> simp [h]
  obtain ⟨hresA, hresR, hresC⟩ := lookupOk_conds c.Resolve hres
  obtain ⟨hrevA, hrevR, hrevC⟩ := lookupOk_conds c.Reverse hrev
  have hbackc : (!c.EnableSystemResolver && c.Hostfiles.isEmpty && c.Nameservers.isEmpty) = false := by
    rcases hback with h | h | h
    · simp [h]
    · cases hl : c.Hostfiles with
      | nil => exact absurd hl h
      | cons a l => simp [hl]
    · cases hl : c.Nameservers with
      | nil => exact absurd hl h
      | cons a l => simp [hl]
  unfold Config.Validate
  rw [if_neg (by simp [hc1]), if_neg (by simp [hresA]), if_neg (by simp [hresR]),
    if_neg (by rw [hresC]; simp), if_neg (by simp [hrevA]), if_neg (by simp [hrevR]),
    if_neg (by rw [hrevC]; simp), if_neg (not_lt.mpr hhs), if_neg (not_lt.mpr hms),
    if_neg (not_le.mpr hht), if_neg (not_le.mpr hmt), if_neg (not_lt.mpr hmr)]
  by_cases htime : c.Timeout ≤ 0
  · rw [if_pos htime, if_pos htime]
  · rw [if_neg htime, if_neg htime, if_neg (by simp [hbackc])]

/-- When `targetStrFromAttributes` found a valid hostname, the forward
driver reduces to the resolve-and-store step. -/
theorem processResolveLookup_found (dp : dnsLookupProcessor)
    (vf : String → String × Option GoErr) (pMap : AttrMap) (t : String)
    (h : targetStrFromAttributes dp.config.Resolve.Attributes pMap vf = (t, none)) :
    processResolveLookup dp vf pMap =
      (let r := dp.resolver.resolve t
       if r.err.isNone then
         (if 0 < r.value.length then
           putStr pMap dp.config.Resolve.ResolvedAttribute r.value
          else pMap, none, [t])
       else if errIs r.err GoErr.noResolution then (pMap, none, [t])
       else (pMap, r.err, [t])) := by
  unfold processResolveLookup
  rw [h]

/-- When `targetStrFromAttributes` found a valid IP, the reverse driver
reduces to the resolve-and-store step. -/
theorem processReverseLookup_found (dp : dnsLookupProcessor)
    (vg : String → String × Option GoErr) (pMap : AttrMap) (t : String)
    (h : targetStrFromAttributes dp.config.Reverse.Attributes pMap vg = (t, none)) :
    processReverseLookup dp vg pMap =
      (let r := dp.resolver.reverse t
       if r.err.isNone then
         (if 0 < r.value.length then
           putStr pMap dp.config.Reverse.ResolvedAttribute r.value
          else pMap, none, [t])
       else if errIs r.err GoErr.noResolution then (pMap, none, [t])
       else (pMap, r.err, [t])) := by
  unfold processReverseLookup
  rw [h]

/-- The rules other than the timeout's do not mention the timeout. -/
theorem fieldRules_timeout_update (c : Config) (t : ℚ)
    (h : fieldRulesExceptTimeout c) :
    fieldRulesExceptTimeout { c with Timeout := t } := h

theorem testConfig_fieldRules : fieldRulesExceptTimeout testConfig := by
  refine ⟨Or.inl rfl, ?_, ?_, by decide, by decide, by decide, by decide,
    by decide, Or.inl rfl⟩
  · intro _
    exact ⟨by decide, by decide, Or.inl rfl⟩
  · intro h
    exact absurd h (by decide)

/-! ## The claims -/

/-- C2: the spec's retry budget (modelled by `specChainResolve`) would let a
chain with one additional attempt absorb a member's transient first-call
failure, but the chain as implemented gives each member exactly one call
and returns the failure: `NewChainResolver` takes no retry count and
`resolveInSequence` has no retry loop, even though its caller passes
`config.MaxRetries`. -/
theorem chain_ignores_retry_budget :
    specChainResolve 1 [flakyMember.resolveFn "example.com"] =
      ⟨"93.184.216.34", none⟩ ∧
    (NewChainResolver [flakyMember]).Resolve "example.com" =
      ⟨"", some (GoErr.errorf "dial timeout")⟩ :=
  ⟨rfl, rfl⟩

/-- C3 (amended): a chain whose member list is exactly one host-file
resolver that reports `ErrNotInHostFiles` returns success with an empty
result and no error.  (The conversion is not limited to that case: see the
counterexample.) -/
theorem chain_single_hostfile_empty_success (c : ChainResolver)
    (resolverFn : ResolverBehavior → GoResult) (r : ResolverBehavior)
    (hone : c.resolvers = [r])
    (hnihf : errIs (resolverFn r).err GoErr.notInHostFiles = true)
    (hnores : errIs (resolverFn r).err GoErr.noResolution = false) :
    c.resolveInSequence resolverFn = ⟨"", none⟩ := by
  have hsome : (resolverFn r).err.isSome = true := by
    cases h : (resolverFn r).err <;> simp_all [errIs]
  have hcond := fail_cond_of_some _ hsome hnores
  unfold ChainResolver.resolveInSequence
  rw [hone]
  simp only [List.map_cons, List.map_nil, resolveInSeqLoop]
  rw [if_neg (by simp [hcond]), if_pos hnihf]

theorem chain_single_hostfile_empty_success_witness :
    (NewChainResolver [hostfileMissMember]).resolveInSequence
      (fun r => r.resolveFn "example.com" 0) = ⟨"", none⟩ :=
  chain_single_hostfile_empty_success _ _ hostfileMissMember rfl rfl rfl

/-- C3 counterexample: a chain of two resolvers — not exactly one host-file
backend — whose last observed error matches `ErrNotInHostFiles` is also
converted to empty success, so the conversion does not apply only in the
exactly-one-host-file-backend case. -/
theorem chain_two_member_empty_success :
    (NewChainResolver
      [constMember "nameserver" ⟨"", some (GoErr.errorf "backend down")⟩,
       hostfileMissMember]).Resolve "example.com" = ⟨"", none⟩ := rfl

/-- C4: when every member of a non-empty chain fails with an error matching
neither `ErrNoResolution` nor `ErrNotInHostFiles`, the chain returns the
last member's error verbatim (with an empty result value). -/
theorem chain_returns_last_error (c : ChainResolver)
    (resolverFn : ResolverBehavior → GoResult)
    (front : List ResolverBehavior) (lastR : ResolverBehavior)
    (hsplit : c.resolvers = front ++ [lastR])
    (hall : ∀ r ∈ c.resolvers,
      (resolverFn r).err.isSome = true ∧
        errIs (resolverFn r).err GoErr.noResolution = false ∧
        errIs (resolverFn r).err GoErr.notInHostFiles = false) :
    c.resolveInSequence resolverFn = ⟨"", (resolverFn lastR).err⟩ := by
  have hmap : c.resolvers.map resolverFn
      = front.map resolverFn ++ [resolverFn lastR] := by
    rw [hsplit]; simp
  have hall2 : ∀ o ∈ front.map resolverFn ++ [resolverFn lastR],
      (o.err.isNone || errIs o.err GoErr.noResolution) = false := by
    intro o ho
    rw [← hmap, List.mem_map] at ho
    obtain ⟨r, hr, rfl⟩ := ho
    obtain ⟨h1, h2, _⟩ := hall r hr
    exact fail_cond_of_some _ h1 h2
  have hlast := hall lastR (by rw [hsplit]; simp)
  unfold ChainResolver.resolveInSequence
  rw [hmap, resolveInSeqLoop_all_fail _ _ _ hall2, if_neg (by simp [hlast.2.2])]

theorem chain_returns_last_error_witness :
    (NewChainResolver [hostfileFailMember, nsPermMember]).resolveInSequence
      (fun r => r.resolveFn "example.com" 0) =
      ⟨"", some GoErr.nsPermanentFailure⟩ :=
  chain_returns_last_error _ _ [hostfileFailMember] nsPermMember rfl (by
    intro r hr
    simp only [NewChainResolver, List.mem_cons, List.not_mem_nil, or_false] at hr
    rcases hr with rfl | rfl <;> exact ⟨rfl, rfl, rfl⟩)

/-- C5: when the members before position i all fail with errors not
matching `ErrNoResolution`, and the member at position i succeeds or
reports `ErrNoResolution`, the chain returns that member's result with no
error — whatever the earlier errors were and whatever members follow. -/
theorem chain_returns_first_success (c : ChainResolver)
    (resolverFn : ResolverBehavior → GoResult)
    (pre : List ResolverBehavior) (succ : ResolverBehavior)
    (rest : List ResolverBehavior)
    (hsplit : c.resolvers = pre ++ succ :: rest)
    (hpre : ∀ r ∈ pre, (resolverFn r).err.isSome = true ∧
      errIs (resolverFn r).err GoErr.noResolution = false)
    (hsucc : (resolverFn succ).err = none ∨
      errIs (resolverFn succ).err GoErr.noResolution = true) :
    c.resolveInSequence resolverFn = ⟨(resolverFn succ).value, none⟩ := by
  have hmap : c.resolvers.map resolverFn
      = pre.map resolverFn ++ resolverFn succ :: rest.map resolverFn := by
    rw [hsplit]; simp
  have hpre2 : ∀ o ∈ pre.map resolverFn,
      (o.err.isNone || errIs o.err GoErr.noResolution) = false := by
    intro o ho
    rw [List.mem_map] at ho
    obtain ⟨r, hr, rfl⟩ := ho
    obtain ⟨h1, h2⟩ := hpre r hr
    exact fail_cond_of_some _ h1 h2
  have hsucc2 : ((resolverFn succ).err.isNone ||
      errIs (resolverFn succ).err GoErr.noResolution) = true := by
    rcases hsucc with h | h <;> simp [h]
  unfold ChainResolver.resolveInSequence
  rw [hmap, resolveInSeqLoop_success_at _ _ _ _ hpre2 hsucc2]

theorem chain_returns_first_success_witness :
    (NewChainResolver [hostfileFailMember, successMember, nsPermMember]).resolveInSequence
      (fun r => r.resolveFn "example.com" 0) = ⟨"93.184.216.34", none⟩ :=
  chain_returns_first_success _ _ [hostfileFailMember] successMember [nsPermMember]
    rfl (by
      intro r hr
      simp only [List.mem_singleton] at hr
      subst hr
      exact ⟨rfl, rfl⟩)
    (Or.inl rfl)

/-- C10: the chain never returns an error matching `ErrNotInHostFiles` —
and whenever every member fails (errors not matching `ErrNoResolution`)
and the last observed error matches `ErrNotInHostFiles`, the chain returns
an empty result with no error, whatever the chain's length and
composition. -/
theorem chain_never_returns_notInHostFiles (c : ChainResolver) :
    (∀ resolverFn, errIs (c.resolveInSequence resolverFn).err
      GoErr.notInHostFiles = false) ∧
    (∀ hostname, errIs (c.Resolve hostname).err GoErr.notInHostFiles = false) ∧
    (∀ ip, errIs (c.Reverse ip).err GoErr.notInHostFiles = false) ∧
    (∀ resolverFn (front : List ResolverBehavior) (lastR : ResolverBehavior),
      c.resolvers = front ++ [lastR] →
      (∀ r ∈ c.resolvers, (resolverFn r).err.isSome = true ∧
        errIs (resolverFn r).err GoErr.noResolution = false) →
      errIs (resolverFn lastR).err GoErr.notInHostFiles = true →
      c.resolveInSequence resolverFn = ⟨"", none⟩) := by
  refine ⟨fun f => resolveInSeqLoop_never_notInHostFiles _ _,
    fun hostname => resolveInSeqLoop_never_notInHostFiles _ _,
    fun ip => resolveInSeqLoop_never_notInHostFiles _ _, ?_⟩
  intro f front lastR hsplit hall hlast
  have hmap : c.resolvers.map f = front.map f ++ [f lastR] := by
    rw [hsplit]; simp
  have hall2 : ∀ o ∈ front.map f ++ [f lastR],
      (o.err.isNone || errIs o.err GoErr.noResolution) = false := by
    intro o ho
    rw [← hmap, List.mem_map] at ho
    obtain ⟨r, hr, rfl⟩ := ho
    obtain ⟨h1, h2⟩ := hall r hr
    exact fail_cond_of_some _ h1 h2
  unfold ChainResolver.resolveInSequence
  rw [hmap, resolveInSeqLoop_all_fail _ _ _ hall2, if_pos hlast]

theorem chain_never_returns_notInHostFiles_witness :
    errIs ((NewChainResolver [hostfileMissMember]).Resolve "example.com").err
      GoErr.notInHostFiles = false :=
  (chain_never_returns_notInHostFiles (NewChainResolver [hostfileMissMember])).2.1
    "example.com"

/-- C6: on a record where no listed attribute is present at all,
`targetStrFromAttributes` returns `("", nil)`, so `processResolveLookup`
does not skip the record: it invokes the composed resolver with the empty
string and returns the resolver's failure as the record error. -/
theorem lookup_no_attribute_invokes_resolver :
    processResolveLookup failingBackendProcessor (fun s => (s, none)) [] =
      ([], some (GoErr.errorf "lookup failure"), [""]) := rfl

/-- C7: once a valid target is found, the driver writes the resolver's
non-empty result to the configured destination attribute (overwriting any
existing value), writes nothing and raises no error on a result matching
`ErrNoResolution`, returns any other failure as the record error, and
modifies no attribute other than the destination — in the forward and the
reverse direction alike. -/
theorem lookup_writes_only_destination (dp : dnsLookupProcessor)
    (vf vg : String → String × Option GoErr) (pMap : AttrMap)
    (hostname ip : String) :
    (targetStrFromAttributes dp.config.Resolve.Attributes pMap vf =
        (hostname, none) →
      ((dp.resolver.resolve hostname).err = none →
        0 < (dp.resolver.resolve hostname).value.length →
        processResolveLookup dp vf pMap =
          (putStr pMap dp.config.Resolve.ResolvedAttribute
            (dp.resolver.resolve hostname).value, none, [hostname]) ∧
        mapGet (processResolveLookup dp vf pMap).1
            dp.config.Resolve.ResolvedAttribute =
          some (dp.resolver.resolve hostname).value) ∧
      (errIs (dp.resolver.resolve hostname).err GoErr.noResolution = true →
        processResolveLookup dp vf pMap = (pMap, none, [hostname])) ∧
      (∀ e, (dp.resolver.resolve hostname).err = some e →
        GoErr.is e GoErr.noResolution = false →
        processResolveLookup dp vf pMap = (pMap, some e, [hostname])) ∧
      (∀ k, k ≠ dp.config.Resolve.ResolvedAttribute →
        mapGet (processResolveLookup dp vf pMap).1 k = mapGet pMap k)) ∧
    (targetStrFromAttributes dp.config.Reverse.Attributes pMap vg =
        (ip, none) →
      ((dp.resolver.reverse ip).err = none →
        0 < (dp.resolver.reverse ip).value.length →
        processReverseLookup dp vg pMap =
          (putStr pMap dp.config.Reverse.ResolvedAttribute
            (dp.resolver.reverse ip).value, none, [ip]) ∧
        mapGet (processReverseLookup dp vg pMap).1
            dp.config.Reverse.ResolvedAttribute =
          some (dp.resolver.reverse ip).value) ∧
      (errIs (dp.resolver.reverse ip).err GoErr.noResolution = true →
        processReverseLookup dp vg pMap = (pMap, none, [ip])) ∧
      (∀ e, (dp.resolver.reverse ip).err = some e →
        GoErr.is e GoErr.noResolution = false →
        processReverseLookup dp vg pMap = (pMap, some e, [ip])) ∧
      (∀ k, k ≠ dp.config.Reverse.ResolvedAttribute →
        mapGet (processReverseLookup dp vg pMap).1 k = mapGet pMap k)) := by
  constructor
  · intro hfound
    have hunf := processResolveLookup_found dp vf pMap hostname hfound
    refine ⟨?_, ?_, ?_, ?_⟩
    · intro he hl
      refine ⟨?_, ?_⟩
      · rw [hunf]; simp [he, hl]
      · rw [hunf]; simp [he, hl, mapGet_putStr_same]
    · intro hnr
      have hne : (dp.resolver.resolve hostname).err.isNone = false := by
        cases h : (dp.resolver.resolve hostname).err <;> simp_all [errIs]
      rw [hunf]; simp [hne, hnr]
    · intro e he hnr
      rw [hunf]; simp [he, errIs, hnr]
    · intro k hk
      rw [hunf]
      cases h : (dp.resolver.resolve hostname).err with
      | none =>
        by_cases hl : 0 < (dp.resolver.resolve hostname).value.length
        · simp [h, hl, mapGet_putStr_other _ _ _ _ hk]
        · simp [h, hl]
      | some e =>
        cases hi : GoErr.is e GoErr.noResolution <;> simp [h, errIs, hi]
  · intro hfound
    have hunf := processReverseLookup_found dp vg pMap ip hfound
    refine ⟨?_, ?_, ?_, ?_⟩
    · intro he hl
      refine ⟨?_, ?_⟩
      · rw [hunf]; simp [he, hl]
      · rw [hunf]; simp [he, hl, mapGet_putStr_same]
    · intro hnr
      have hne : (dp.resolver.reverse ip).err.isNone = false := by
        cases h : (dp.resolver.reverse ip).err <;> simp_all [errIs]
      rw [hunf]; simp [hne, hnr]
    · intro e he hnr
      rw [hunf]; simp [he, errIs, hnr]
    · intro k hk
      rw [hunf]
      cases h : (dp.resolver.reverse ip).err with
      | none =>
        by_cases hl : 0 < (dp.resolver.reverse ip).value.length
        · simp [h, hl, mapGet_putStr_other _ _ _ _ hk]
        · simp [h, hl]
      | some e =>
        cases hi : GoErr.is e GoErr.noResolution <;> simp [h, errIs, hi]

theorem lookup_writes_only_destination_witness :
    processResolveLookup
      { config := testConfig,
        resolver := ⟨fun _ => ⟨"93.184.216.34", none⟩, fun _ => ⟨"", none⟩⟩ }
      (fun s => (s, none)) [("host.name", "example.com")] =
      ([("host.name", "example.com"), ("host.ip", "93.184.216.34")], none,
        ["example.com"]) :=
  ((lookup_writes_only_destination
      { config := testConfig,
        resolver := ⟨fun _ => ⟨"93.184.216.34", none⟩, fun _ => ⟨"", none⟩⟩ }
      (fun s => (s, none)) (fun s => (s, none))
      [("host.name", "example.com")] "example.com" "").1 rfl).1 rfl (by decide)
    |>.1

/-- C8: `Close()` on a chain closes every member even when some fail to
close, and returns `errors.Join` of all the member close errors (nil when
there are none); on a three-member chain where only the second fails, the
combined error holds exactly the second member's error. -/
theorem chain_close_closes_all_and_joins (c : ChainResolver) :
    (∀ r ∈ (ChainResolver.Close c).1.resolvers, r.closed = true) ∧
    (ChainResolver.Close c).2 =
      errorsJoin (c.resolvers.filterMap fun r => r.closeErr) ∧
    ∀ e : GoErr,
      (ChainResolver.Close (NewChainResolver
        [constMember "hostfile" ⟨"", none⟩,
         { constMember "nameserver" ⟨"", none⟩ with closeErr := some e },
         constMember "system" ⟨"", none⟩])).2 = some (GoErr.join [e]) ∧
      GoErr.is (GoErr.join [e]) e = true := by
  refine ⟨?_, ?_, ?_⟩
  · intro r hr
    exact closeSeq_all_closed c.resolvers r hr
  · simp only [ChainResolver.Close]
    rw [closeSeq_errs]
  · intro e
    exact ⟨rfl, by simp [GoErr.is, GoErr.isAny, GoErr.is_self]⟩

theorem chain_close_closes_all_and_joins_witness :
    (ChainResolver.Close (NewChainResolver
      [constMember "hostfile" ⟨"", none⟩,
       { constMember "nameserver" ⟨"", none⟩ with
          closeErr := some (GoErr.errorf "close failure") },
       constMember "system" ⟨"", none⟩])).2 =
      some (GoErr.join [GoErr.errorf "close failure"]) :=
  ((chain_close_closes_all_and_joins (NewChainResolver [])).2.2
    (GoErr.errorf "close failure")).1

/-- C9: validation rejects a configuration with both directions disabled
with the expected message, rejects a zero or negative timeout (when the
other field rules hold) with the expected message, and accepts a
configuration meeting every field rule. -/
theorem config_validation_rules (c : Config) :
    (c.Resolve.Enabled = false → c.Reverse.Enabled = false →
      c.Validate =
        some "either forward (resolve) or reverse DNS lookup must be enabled") ∧
    (fieldRulesExceptTimeout c → c.Timeout ≤ 0 →
      c.Validate = some "timeout must be positive") ∧
    (fieldRulesExceptTimeout c → 0 < c.Timeout → c.Validate = none) := by
  refine ⟨?_, ?_, ?_⟩
  · intro h1 h2
    unfold Config.Validate
    rw [if_pos (by simp [h1, h2])]
  · intro hf ht
    rw [validate_of_fieldRules c hf, if_pos ht]
  · intro hf ht
    rw [validate_of_fieldRules c hf, if_neg (not_le.mpr ht)]

theorem config_validation_rules_witness :
    Config.Validate testConfig = none ∧
    Config.Validate { testConfig with
        Resolve := { testConfig.Resolve with Enabled := false } } =
      some "either forward (resolve) or reverse DNS lookup must be enabled" ∧
    Config.Validate { testConfig with Timeout := 0 } =
      some "timeout must be positive" ∧
    Config.Validate { testConfig with Timeout := -1 } =
      some "timeout must be positive" :=
  ⟨(config_validation_rules testConfig).2.2 testConfig_fieldRules (by decide),
   (config_validation_rules _).1 rfl rfl,
   (config_validation_rules _).2.1
     (fieldRules_timeout_update testConfig 0 testConfig_fieldRules) le_rfl,
   (config_validation_rules _).2.1
     (fieldRules_timeout_update testConfig (-1) testConfig_fieldRules)
     (by norm_num)⟩

end OtelDNS
